import Mathlib

/-!
Shallow embedding of `img_conv.py`, a directory-level image format
converter built on PIL.  The script has three functions:

* `convert_image input_path output_path output_format quality` — decodes one
  image, derives the output path from the basename and the lower-cased
  format, encodes (forcing RGB for webp), and catches all exceptions,
  printing status lines.
* `process_directory input_dir output_dir output_format quality` — creates
  the output directory if missing, lists the input directory, and for each
  regular file performs a trial decode before invoking `convert_image`.
* `main` — parses arguments, validates the input directory, runs the walker.

The filesystem is modelled as a `World`: an association list of regular
files, a list of existing directories, and a list of paths at which writing
raises an OS error (disk full and the like).  PIL is modelled abstractly:
an image is a pixel mode together with an opaque content token; decoding a
non-image raises, decoding a missing path raises FileNotFoundError, saving
records the format, mode, content and (for lossy saves) the quality.
Python exceptions are an `Except PyErr` layer; the `try/except` blocks of
the script are total handlers over that layer.
-/

/-- Python-style exceptions relevant to the script: `FileNotFoundError`
is distinguished because `convert_image` has a dedicated handler for it;
every other exception is `other` with its message. -/
inductive PyErr where
  | fileNotFound
  | other (msg : String)
deriving DecidableEq, Repr

/-- ASCII lower-casing of one character (the fragment of Python's
`str.lower` the script exercises: format names and extensions). -/
def charLower (c : Char) : Char :=
  if 'A' ≤ c ∧ c ≤ 'Z' then Char.ofNat (c.toNat + 32) else c

/-- `s.lower()` on ASCII strings. -/
def pyLower (s : String) : String := String.mk (s.toList.map charLower)

/-- ASCII upper-casing of one character. -/
def charUpper (c : Char) : Char :=
  if 'a' ≤ c ∧ c ≤ 'z' then Char.ofNat (c.toNat - 32) else c

/-- `s.upper()` on ASCII strings (PIL upper-cases the format argument). -/
def pyUpper (s : String) : String := String.mk (s.toList.map charUpper)

/-- Split a character list on the path separator. Mirrors what
`str.split('/')` yields: always at least one (possibly empty) part. -/
def splitSep : List Char → List (List Char)
  | [] => [[]]
  | c :: rest =>
    match splitSep rest with
    | [] => [[]]
    | h :: t => if c = '/' then [] :: h :: t else (c :: h) :: t

/-- Re-join parts with the path separator; inverse of `splitSep`. -/
def joinSep : List (List Char) → List Char
  | [] => []
  | [h] => h
  | h :: t => h ++ '/' :: joinSep t

/-- `os.path.basename` (posixpath): everything after the last slash. -/
def os_basename (p : String) : String :=
  String.mk ((splitSep p.toList).getLastD [])

/-- Index of the last occurrence of `c` in `cs`, if any. -/
def findLastIdx (cs : List Char) (c : Char) : Option Nat :=
  ((cs.enum.filter (fun e => e.2 = c)).map (fun e => e.1)).getLast?

/-- `os.path.splitext` (posixpath `_splitext`): split at the last dot,
provided it lies after the last slash and the basename does not consist
solely of leading dots up to that point. -/
def os_splitext (p : String) : String × String :=
  let cs := p.toList
  match findLastIdx cs '.' with
  | none => (p, "")
  | some d =>
    let s := match findLastIdx cs '/' with
      | none => 0
      | some i => i + 1
    if s ≤ d ∧ ((cs.drop s).take (d - s)).any (fun ch => ch ≠ '.') then
      (String.mk (cs.take d), String.mk (cs.drop d))
    else (p, "")

/-- Prefix test on character lists (first argument is the prospective
prefix), used in place of byte-level string primitives so that every
definition evaluates inside the kernel. -/
def listIsPre : List Char → List Char → Bool
  | [], _ => true
  | _ :: _, [] => false
  | a :: as, b :: bs => a = b && listIsPre as bs

/-- `os.path.join` (posixpath) for two components. -/
def os_join (a b : String) : String :=
  if listIsPre ['/'] b.toList then b
  else if a = "" ∨ a.toList.getLast? = some '/' then a ++ b
  else a ++ "/" ++ b

/-- Contents of one regular file as the model sees it: a decodable image
(with its encoded format, pixel mode, opaque content token and, when it
was written by a lossy save, the quality used), or non-image bytes. -/
structure ImgFile where
  fmt : String
  mode : String
  content : Nat
  quality : Option Int
deriving DecidableEq, Repr

/-- A regular file: either a decodable image or non-image data. -/
inductive FileData where
  | image (f : ImgFile)
  | nonImage (content : Nat)
deriving DecidableEq, Repr

/-- The filesystem state plus write-failure oracle. `files` maps absolute
paths of regular files to their data (no duplicate paths intended);
`dirs` lists existing directories; writing to a path in `badWrite`
raises an OS error. -/
structure World where
  files : List (String × FileData)
  dirs : List String
  badWrite : List String
deriving DecidableEq, Repr

def World.lookup (w : World) (p : String) : Option FileData :=
  (w.files.find? (fun e => e.1 = p)).map (fun e => e.2)

def World.isfile (w : World) (p : String) : Bool :=
  (w.lookup p).isSome

def World.isdir (w : World) (p : String) : Bool :=
  w.dirs.contains p

/-- `os.path.exists`. -/
def World.pathExists (w : World) (p : String) : Bool :=
  w.isfile p || w.isdir p

/-- Write (create or overwrite) the regular file at `p`. -/
def World.setFile (w : World) (p : String) (d : FileData) : World :=
  { w with files := (w.files.filter (fun e => e.1 ≠ p)) ++ [(p, d)] }

/-- All the directories `os.makedirs p` guarantees to exist afterwards:
every non-empty prefix of `p` at a separator boundary, `p` itself last. -/
def pathPrefixes (p : String) : List String :=
  let parts := splitSep p.toList
  ((List.range parts.length).map
    (fun i => String.mk (joinSep (parts.take (i + 1))))).filter (fun q => q ≠ "")

/-- `os.makedirs p`: create every missing ancestor of `p` and `p` itself. -/
def World.makedirs (w : World) (p : String) : World :=
  { w with dirs := w.dirs ++ (pathPrefixes p).filter (fun q => ¬ w.dirs.contains q) }

/-- The name under `d` of the entry with absolute path `q`, when `q` is a
direct child of `d` (no further separator in the remainder). -/
def childNameFrom (pre q : String) : Option String :=
  if listIsPre pre.toList q.toList then
    if String.mk (q.toList.drop pre.toList.length) ≠ "" ∧
        ¬ (String.mk (q.toList.drop pre.toList.length)).toList.contains '/' then
      some (String.mk (q.toList.drop pre.toList.length))
    else none
  else none

def childName (d q : String) : Option String :=
  childNameFrom (if d.toList.getLast? = some '/' then d else d ++ "/") q

/-- `os.listdir d`: the names of the entries (files and subdirectories)
directly inside `d`, non-recursively. -/
def World.listdir (w : World) (d : String) : List String :=
  (w.files.map (fun e => e.1) ++ w.dirs).filterMap (childName d)

/-- An in-memory PIL image handle: pixel mode plus opaque content. -/
structure Img where
  mode : String
  content : Nat
deriving DecidableEq, Repr

/-- `PIL.Image.open p`: FileNotFoundError when the path does not exist,
some other OSError when it is a directory or not a decodable image,
otherwise a handle onto the decoded image. -/
def imageOpen (w : World) (p : String) : Except PyErr Img :=
  match w.lookup p with
  | some (.image f) => .ok { mode := f.mode, content := f.content }
  | some (.nonImage _) =>
      .error (.other ("cannot identify image file \x27" ++ p ++ "\x27"))
  | none =>
      if w.isdir p then .error (.other ("Is a directory: \x27" ++ p ++ "\x27"))
      else .error .fileNotFound

/-- `img.convert m`: reinterpret the pixels in mode `m`; content is kept. -/
def imgConvert (img : Img) (m : String) : Img :=
  { img with mode := m }

/-- PIL's extension registry, restricted to the formats this tool can
produce plus a few common inputs; the key is the lower-cased extension
including the dot. -/
def extToFormat (ext : String) : Option String :=
  if ext = ".png" then some "PNG"
  else if ext = ".jpg" ∨ ext = ".jpeg" then some "JPEG"
  else if ext = ".webp" then some "WEBP"
  else if ext = ".bmp" then some "BMP"
  else if ext = ".gif" then some "GIF"
  else none

/-- Pixel modes the JPEG encoder accepts; saving any other mode raises
(`cannot write mode ... as JPEG`). -/
def jpegModes : List String := ["1", "L", "RGB", "CMYK", "YCbCr"]

/-- Format resolution in `img.save`: an explicit format argument is
upper-cased; otherwise the format is looked up from the path's lower-cased
extension, raising when the extension is not registered. -/
def resolveFormat (fmtArg : Option String) (path : String) : Except PyErr String :=
  match fmtArg with
  | some f => .ok (pyUpper f)
  | none =>
    match extToFormat (pyLower (os_splitext path).2) with
    | some f => .ok f
    | none => .error (.other ("unknown file extension: " ++ (os_splitext path).2))

/-- The encoding step of `img.save` once the format is resolved: enforce
JPEG mode restrictions, fail on paths where the OS refuses the write,
otherwise write the encoded file. -/
def pilSaveResolved (w : World) (img : Img) (path fmt : String)
    (quality : Option Int) : Except PyErr World :=
  if fmt = "JPEG" ∧ ¬ jpegModes.contains img.mode then
    .error (.other ("cannot write mode " ++ img.mode ++ " as JPEG"))
  else if w.badWrite.contains path then
    .error (.other "No space left on device")
  else
    .ok (w.setFile path (.image { fmt := fmt, mode := img.mode,
                                  content := img.content, quality := quality }))

/-- `img.save path [format] [quality]`: resolve the format (explicitly or
from the extension), then encode. -/
def pilSave (w : World) (img : Img) (path : String) (fmtArg : Option String)
    (quality : Option Int) : Except PyErr World :=
  match resolveFormat fmtArg path with
  | .error e => .error e
  | .ok fmt => pilSaveResolved w img path fmt quality

/-- Lines 17–18 of the script: the output path is the basename of the
input with its extension stripped, a dot, the lower-cased format, joined
under the output directory. -/
def finalOutputPath (input_path output_path output_format : String) : String :=
  os_join output_path
    ((os_splitext (os_basename input_path)).1 ++ "." ++ pyLower output_format)

/-- The success status line printed by `convert_image`. -/
def msgConverted (input_path final : String) : String :=
  "Converted \x27" ++ input_path ++ "\x27 to \x27" ++ final ++ "\x27"

/-- The unsupported-format status line. -/
def msgUnsupported (output_format : String) : String :=
  "Unsupported output format: " ++ output_format

/-- The FileNotFoundError handler's status line. -/
def msgNotFound (input_path : String) : String :=
  "Error: Input file \x27" ++ input_path ++ "\x27 not found."

/-- The generic exception handler's status line. -/
def msgGenericError (input_path cause : String) : String :=
  "An error occurred while processing \x27" ++ input_path ++ "\x27: " ++ cause

/-- The `try` block of `convert_image` (lines 15–29): open, derive the
output path, branch on the lower-cased format, save, print.  An error
value is an escaping Python exception, caught by `convert_image`. -/
def convert_image_body (w : World) (input_path output_path output_format : String)
    (quality : Int) : Except PyErr (World × List String) :=
  match imageOpen w input_path with
  | .error e => .error e
  | .ok img =>
    let final := finalOutputPath input_path output_path output_format
    if pyLower output_format = "webp" then
      match pilSave w (imgConvert img "RGB") final (some "webp") (some quality) with
      | .error e => .error e
      | .ok w2 => .ok (w2, [msgConverted input_path final])
    else if ["png", "jpeg", "jpg"].contains (pyLower output_format) then
      match pilSave w img final none none with
      | .error e => .error e
      | .ok w2 => .ok (w2, [msgConverted input_path final])
    else
      .ok (w, [msgUnsupported output_format])

/-- `convert_image` (lines 6–34): the body plus its two exception
handlers; it never lets an exception escape. Returns the world after the
call and the status lines printed. -/
def convert_image (w : World) (input_path output_path output_format : String)
    (quality : Int) : World × List String :=
  match convert_image_body w input_path output_path output_format quality with
  | .ok r => r
  | .error .fileNotFound => (w, [msgNotFound input_path])
  | .error (.other m) => (w, [msgGenericError input_path m])

/-- The skip status line of the walker. -/
def msgSkip (input_path : String) : String :=
  "Skipping non-image file or unsupported format: \x27" ++ input_path ++ "\x27"

/-- The directory-creation status line of the walker. -/
def msgCreated (output_dir : String) : String :=
  "Created output directory: " ++ output_dir

/-- One iteration of the walker's loop (lines 50–58): join the entry name,
keep only regular files, trial-decode to classify, then either skip with a
message or invoke `convert_image`. -/
def walkStep (input_dir output_dir output_format : String) (quality : Int)
    (acc : World × List String) (filename : String) : World × List String :=
  let input_path := os_join input_dir filename
  if acc.1.isfile input_path then
    match imageOpen acc.1 input_path with
    | .ok _ =>
      let r := convert_image acc.1 input_path output_dir output_format quality
      (r.1, acc.2 ++ r.2)
    | .error _ => (acc.1, acc.2 ++ [msgSkip input_path])
  else acc

/-- `process_directory` (lines 37–58): create the output directory when
missing (with a status line), then fold the walker step over the listing
of the input directory taken after that creation. -/
def process_directory (w : World) (input_dir output_dir output_format : String)
    (quality : Int) : World × List String :=
  let start :=
    if ¬ w.pathExists output_dir then
      (w.makedirs output_dir, [msgCreated output_dir])
    else (w, ([] : List String))
  (start.1.listdir input_dir).foldl
    (walkStep input_dir output_dir output_format quality) start

/-- Parsed command-line arguments. -/
structure Args where
  input_dir : String
  output_dir : String
  output_format : String
  quality : Int
deriving DecidableEq, Repr

/-- `argparse` surface (lines 62–69): three positional strings and
`--quality` of type int, default 80 — no range validation anywhere. -/
def parseArgs (input_dir output_dir output_format : String)
    (qualityArg : Option Int) : Args :=
  { input_dir := input_dir, output_dir := output_dir,
    output_format := output_format, quality := qualityArg.getD 80 }

/-- Result of a whole run: final world, printed lines, process exit code. -/
structure RunResult where
  world : World
  output : List String
  exitCode : Int
deriving DecidableEq, Repr

/-- `main` after argument parsing (lines 71–81): lower-case the format,
validate the input directory — on failure print an error and return
normally — otherwise run the walker and print the completion line.  The
script never calls `sys.exit`, so the exit code is 0 on every path. -/
def mainRun (w : World) (input_dir output_dir output_format : String)
    (quality : Int) : RunResult :=
  let fmt := pyLower output_format
  if ¬ w.isdir input_dir then
    { world := w,
      output := ["Error: Input directory \x27" ++ input_dir ++ "\x27 does not exist."],
      exitCode := 0 }
  else
    let r := process_directory w input_dir output_dir fmt quality
    { world := r.1,
      output := r.2 ++ ["Image conversion process completed."],
      exitCode := 0 }

/-- The full entry point: parse the arguments, then run `mainRun`. -/
def runCli (w : World) (input_dir output_dir output_format : String)
    (qualityArg : Option Int) : RunResult :=
  let args := parseArgs input_dir output_dir output_format qualityArg
  mainRun w args.input_dir args.output_dir args.output_format args.quality

/-- A sample filesystem: an input directory holding a transparent PNG, a
text file and a palette BMP — the scenario of the spec's §8. -/
def wSample : World :=
  { files := [("in/photo.png", .image { fmt := "PNG", mode := "RGBA", content := 7, quality := none }),
              ("in/notes.txt", .nonImage 3),
              ("in/logo.bmp", .image { fmt := "BMP", mode := "P", content := 9, quality := none })],
    dirs := ["in"],
    badWrite := [] }

/-- The sample image handle decoded from `in/photo.png`. -/
def imgSample : Img := { mode := "RGBA", content := 7 }

theorem splitSep_ne_nil (cs : List Char) : splitSep cs ≠ [] := by
  cases cs with
  | nil => simp [splitSep]
  | cons c rest =>
    unfold splitSep
    cases splitSep rest with
    | nil => simp
    | cons h t =>
      by_cases hc : c = '/' <;> simp [hc]

theorem joinSep_splitSep (cs : List Char) : joinSep (splitSep cs) = cs := by
  induction cs with
  | nil => rfl
  | cons c rest ih =>
    cases hs : splitSep rest with
    | nil => exact absurd hs (splitSep_ne_nil rest)
    | cons h t =>
      rw [hs] at ih
      by_cases hc : c = '/'
      · subst hc
        unfold splitSep
        rw [hs]
        simp only [if_pos rfl]
        show '/' :: joinSep (h :: t) = '/' :: rest
        rw [ih]
      · unfold splitSep
        rw [hs]
        simp only [if_neg hc]
        cases t with
        | nil =>
          show c :: h = c :: rest
          simpa [joinSep] using ih
        | cons t1 ts =>
          show (c :: h) ++ '/' :: joinSep (t1 :: ts) = c :: rest
          have : h ++ '/' :: joinSep (t1 :: ts) = rest := ih
          simpa using this

theorem mem_pathPrefixes_self {p : String} (h : p ≠ "") : p ∈ pathPrefixes p := by
  unfold pathPrefixes
  rw [List.mem_filter]
  refine ⟨?_, decide_eq_true h⟩
  rw [List.mem_map]
  refine ⟨(splitSep p.toList).length - 1, ?_, ?_⟩
  · rw [List.mem_range]
    have := List.length_pos.mpr (splitSep_ne_nil p.toList)
    omega
  · have hl : (splitSep p.toList).length - 1 + 1 = (splitSep p.toList).length := by
      have := List.length_pos.mpr (splitSep_ne_nil p.toList)
      omega
    rw [hl, List.take_length, joinSep_splitSep]
    rfl

theorem find?_filter_ne (l : List (String × FileData)) (p q : String) (h : q ≠ p) :
    (l.filter (fun e => e.1 ≠ p)).find? (fun e => e.1 = q)
      = l.find? (fun e => e.1 = q) := by
  induction l with
  | nil => rfl
  | cons a l ih =>
    rw [List.filter_cons]
    by_cases ha : a.1 = p
    · have haq : ¬ (a.1 = q) := fun hx => h (hx ▸ ha)
      rw [if_neg (by simp [ha]), List.find?_cons_of_neg _ (by simp [haq])]
      exact ih
    · rw [if_pos (by simp [ha])]
      by_cases haq : a.1 = q
      · rw [List.find?_cons_of_pos _ (by simp [haq]),
            List.find?_cons_of_pos _ (by simp [haq])]
      · rw [List.find?_cons_of_neg _ (by simp [haq]),
            List.find?_cons_of_neg _ (by simp [haq])]
        exact ih

theorem World.lookup_setFile_self (w : World) (p : String) (d : FileData) :
    (w.setFile p d).lookup p = some d := by
  unfold World.setFile World.lookup
  simp only [List.find?_append]
  have h1 : (w.files.filter (fun e => e.1 ≠ p)).find? (fun e => e.1 = p) = none := by
    rw [List.find?_eq_none]
    intro x hx
    rw [List.mem_filter] at hx
    simp only [decide_eq_true_eq] at hx ⊢
    exact hx.2
  rw [h1]
  simp [List.find?_cons]

theorem World.lookup_setFile_ne (w : World) (p q : String) (d : FileData) (h : q ≠ p) :
    (w.setFile p d).lookup q = w.lookup q := by
  unfold World.setFile World.lookup
  simp only [List.find?_append, find?_filter_ne _ _ _ h]
  have h2 : (([(p, d)] : List (String × FileData)).find? (fun e => e.1 = q)) = none := by
    rw [List.find?_eq_none]
    intro x hx
    simp only [List.mem_singleton] at hx
    subst hx
    simp only [decide_eq_true_eq]
    exact fun hx => h hx.symm
  rw [h2, Option.or_none]

theorem World.setFile_setFile (w : World) (p : String) (d d' : FileData) :
    (w.setFile p d).setFile p d' = w.setFile p d' := by
  unfold World.setFile
  simp only [World.mk.injEq, and_true, List.filter_append, List.filter_filter]
  have hA : (fun (a : String × FileData) => decide (a.1 ≠ p) && decide (a.1 ≠ p))
      = (fun (e : String × FileData) => decide (e.1 ≠ p)) := by
    funext a
    exact Bool.and_self _
  have hB : List.filter (fun (e : String × FileData) => decide (e.1 ≠ p)) [(p, d)] = [] := by
    simp
  rw [hA, hB, List.append_nil]

theorem World.countP_setFile (w : World) (p : String) (d : FileData) :
    ((w.setFile p d).files.countP (fun e => e.1 = p)) = 1 := by
  unfold World.setFile
  simp only [List.countP_append]
  have h1 : (w.files.filter (fun e => e.1 ≠ p)).countP (fun e => e.1 = p) = 0 := by
    rw [List.countP_eq_zero]
    intro a ha
    rw [List.mem_filter] at ha
    simp only [decide_eq_true_eq] at ha ⊢
    exact ha.2
  rw [h1]
  simp [List.countP_cons]

theorem World.isdir_makedirs (w : World) (p q : String) (h : q ∈ pathPrefixes p) :
    (w.makedirs p).isdir q = true := by
  unfold World.makedirs World.isdir
  by_cases hq : w.dirs.contains q
  · exact List.elem_eq_true_of_mem (List.mem_append.mpr (Or.inl (List.mem_of_elem_eq_true hq)))
  · refine List.elem_eq_true_of_mem (List.mem_append.mpr (Or.inr ?_))
    rw [List.mem_filter]
    exact ⟨h, by simpa using hq⟩

theorem pilSaveResolved_ok (w : World) (img : Img) (path fmt : String)
    (quality : Option Int) (w' : World)
    (h : pilSaveResolved w img path fmt quality = .ok w') :
    w' = w.setFile path
        (.image { fmt := fmt, mode := img.mode, content := img.content, quality := quality })
      ∧ w.badWrite.contains path = false
      ∧ ¬ (fmt = "JPEG" ∧ ¬ jpegModes.contains img.mode) := by
  unfold pilSaveResolved at h
  by_cases hj : fmt = "JPEG" ∧ ¬ jpegModes.contains img.mode
  · rw [if_pos hj] at h
    exact absurd h (by simp)
  · rw [if_neg hj] at h
    by_cases hb : w.badWrite.contains path
    · rw [if_pos hb] at h
      exact absurd h (by simp)
    · rw [if_neg hb] at h
      injection h with h
      exact ⟨h.symm, by simpa using hb, hj⟩

theorem pilSave_ok (w : World) (img : Img) (path : String) (fmtArg : Option String)
    (quality : Option Int) (w' : World)
    (h : pilSave w img path fmtArg quality = .ok w') :
    ∃ F, resolveFormat fmtArg path = .ok F ∧
      w' = w.setFile path
          (.image { fmt := F, mode := img.mode, content := img.content, quality := quality })
        ∧ w.badWrite.contains path = false
        ∧ ¬ (F = "JPEG" ∧ ¬ jpegModes.contains img.mode) := by
  unfold pilSave at h
  cases hr : resolveFormat fmtArg path with
  | error e => rw [hr] at h; exact absurd h (by simp)
  | ok fmt =>
    rw [hr] at h
    have h2 : pilSaveResolved w img path fmt quality = .ok w' := h
    exact ⟨fmt, rfl, pilSaveResolved_ok _ _ _ _ _ _ h2⟩

theorem pilSave_writes (w : World) (img : Img) (path : String) (fmt : String)
    (fmtArg : Option String) (quality : Option Int)
    (hr : resolveFormat fmtArg path = .ok fmt)
    (hj : ¬ (fmt = "JPEG" ∧ ¬ jpegModes.contains img.mode))
    (hb : w.badWrite.contains path = false) :
    pilSave w img path fmtArg quality = .ok (w.setFile path
      (.image { fmt := fmt, mode := img.mode, content := img.content, quality := quality })) := by
  unfold pilSave
  rw [hr]
  show pilSaveResolved w img path fmt quality = _
  unfold pilSaveResolved
  rw [if_neg hj, if_neg (by rw [hb]; exact Bool.false_ne_true)]

theorem convert_image_body_err (w : World) (ip od fmt : String) (q : Int) (e : PyErr)
    (hopen : imageOpen w ip = .error e) :
    convert_image_body w ip od fmt q = .error e := by
  unfold convert_image_body
  rw [hopen]

theorem convert_image_body_webp (w : World) (ip od fmt : String) (q : Int) (img : Img)
    (hopen : imageOpen w ip = .ok img) (hfmt : pyLower fmt = "webp") :
    convert_image_body w ip od fmt q =
      match pilSave w (imgConvert img "RGB") (finalOutputPath ip od fmt)
          (some "webp") (some q) with
      | .error e => .error e
      | .ok w2 => .ok (w2, [msgConverted ip (finalOutputPath ip od fmt)]) := by
  unfold convert_image_body
  rw [hopen]
  show (if pyLower fmt = "webp" then _ else _) = _
  rw [if_pos hfmt]

theorem convert_image_body_std (w : World) (ip od fmt : String) (q : Int) (img : Img)
    (hopen : imageOpen w ip = .ok img) (hne : pyLower fmt ≠ "webp")
    (hmem : (["png", "jpeg", "jpg"].contains (pyLower fmt)) = true) :
    convert_image_body w ip od fmt q =
      match pilSave w img (finalOutputPath ip od fmt) none none with
      | .error e => .error e
      | .ok w2 => .ok (w2, [msgConverted ip (finalOutputPath ip od fmt)]) := by
  unfold convert_image_body
  rw [hopen]
  show (if pyLower fmt = "webp" then _ else _) = _
  rw [if_neg hne]
  show (if (["png", "jpeg", "jpg"].contains (pyLower fmt)) = true then _ else _) = _
  rw [if_pos hmem]

theorem convert_image_body_unsup (w : World) (ip od fmt : String) (q : Int) (img : Img)
    (hopen : imageOpen w ip = .ok img) (hne : pyLower fmt ≠ "webp")
    (hnmem : (["png", "jpeg", "jpg"].contains (pyLower fmt)) = false) :
    convert_image_body w ip od fmt q = .ok (w, [msgUnsupported fmt]) := by
  unfold convert_image_body
  rw [hopen]
  show (if pyLower fmt = "webp" then _ else _) = _
  rw [if_neg hne]
  show (if (["png", "jpeg", "jpg"].contains (pyLower fmt)) = true then _ else _) = _
  rw [if_neg (by rw [hnmem]; exact Bool.false_ne_true)]

theorem convert_image_eq_ok (w : World) (ip od fmt : String) (q : Int)
    (r : World × List String)
    (h : convert_image_body w ip od fmt q = .ok r) :
    convert_image w ip od fmt q = r := by
  unfold convert_image
  rw [h]

theorem convert_image_eq_nf (w : World) (ip od fmt : String) (q : Int)
    (h : convert_image_body w ip od fmt q = .error .fileNotFound) :
    convert_image w ip od fmt q = (w, [msgNotFound ip]) := by
  unfold convert_image
  rw [h]

theorem convert_image_eq_err (w : World) (ip od fmt : String) (q : Int) (m : String)
    (h : convert_image_body w ip od fmt q = .error (.other m)) :
    convert_image w ip od fmt q = (w, [msgGenericError ip m]) := by
  unfold convert_image
  rw [h]

theorem resolveFormat_webp (path : String) :
    resolveFormat (some "webp") path = .ok "WEBP" := by
  show Except.ok (pyUpper "webp") = Except.ok "WEBP"
  rw [show pyUpper "webp" = "WEBP" from by decide]

theorem mem_three_ne_webp {s : String}
    (h : (["png", "jpeg", "jpg"].contains s) = true) : s ≠ "webp" := by
  intro hx
  rw [hx] at h
  exact absurd h (by decide)

theorem webp_body_eq (w : World) (ip od fmt : String) (q : Int) (img : Img)
    (hfmt : pyLower fmt = "webp") (hopen : imageOpen w ip = .ok img)
    (hb : w.badWrite.contains (finalOutputPath ip od fmt) = false) :
    convert_image_body w ip od fmt q =
      .ok (w.setFile (finalOutputPath ip od fmt)
            (.image { fmt := "WEBP", mode := "RGB", content := img.content, quality := some q }),
           [msgConverted ip (finalOutputPath ip od fmt)]) := by
  rw [convert_image_body_webp w ip od fmt q img hopen hfmt]
  rw [pilSave_writes w (imgConvert img "RGB") (finalOutputPath ip od fmt) "WEBP"
      (some "webp") (some q) (resolveFormat_webp _)
      (fun hx => absurd hx.1 (by decide)) hb]
  rfl

theorem std_body_eq (w : World) (ip od fmt F : String) (q : Int) (img : Img)
    (hne : pyLower fmt ≠ "webp")
    (hmem : (["png", "jpeg", "jpg"].contains (pyLower fmt)) = true)
    (hopen : imageOpen w ip = .ok img)
    (hres : resolveFormat none (finalOutputPath ip od fmt) = .ok F)
    (hj : ¬ (F = "JPEG" ∧ ¬ jpegModes.contains img.mode))
    (hb : w.badWrite.contains (finalOutputPath ip od fmt) = false) :
    convert_image_body w ip od fmt q =
      .ok (w.setFile (finalOutputPath ip od fmt)
            (.image { fmt := F, mode := img.mode, content := img.content, quality := none }),
           [msgConverted ip (finalOutputPath ip od fmt)]) := by
  rw [convert_image_body_std w ip od fmt q img hopen hne hmem]
  rw [pilSave_writes w img (finalOutputPath ip od fmt) F none none hres hj hb]

/-- C1: for every input file path, output directory and format string that
reaches a conversion branch, a successful run of the `convert_image` body
changes the world only by a write at the derived output path: the source
file's base name with its extension stripped, concatenated with a period
and the lower-cased target format, joined under the output directory. -/
theorem claim_C1 (w : World) (ip od fmt : String) (q : Int) (w2 : World) (out : List String)
    (hfmt : pyLower fmt = "webp" ∨ (["png", "jpeg", "jpg"].contains (pyLower fmt)) = true)
    (h : convert_image_body w ip od fmt q = .ok (w2, out)) :
    ∃ d : FileData,
      w2 = w.setFile (os_join od ((os_splitext (os_basename ip)).1 ++ "." ++ pyLower fmt)) d := by
  cases hopen : imageOpen w ip with
  | error e =>
    rw [convert_image_body_err w ip od fmt q e hopen] at h
    exact absurd h (by simp)
  | ok img =>
    rcases hfmt with hfmt | hmem
    · rw [convert_image_body_webp w ip od fmt q img hopen hfmt] at h
      cases hps : pilSave w (imgConvert img "RGB") (finalOutputPath ip od fmt)
          (some "webp") (some q) with
      | error e => rw [hps] at h; exact absurd h (by simp)
      | ok w' =>
        rw [hps] at h
        injection h with h
        rw [Prod.mk.injEq] at h
        obtain ⟨F, -, hset, -, -⟩ := pilSave_ok _ _ _ _ _ _ hps
        exact ⟨_, h.1 ▸ hset⟩
    · rw [convert_image_body_std w ip od fmt q img hopen (mem_three_ne_webp hmem) hmem] at h
      cases hps : pilSave w img (finalOutputPath ip od fmt) none none with
      | error e => rw [hps] at h; exact absurd h (by simp)
      | ok w' =>
        rw [hps] at h
        injection h with h
        rw [Prod.mk.injEq] at h
        obtain ⟨F, -, hset, -, -⟩ := pilSave_ok _ _ _ _ _ _ hps
        exact ⟨_, h.1 ▸ hset⟩

/-- C1 witness: converting `in/photo.png` to webp in `out` writes at
exactly the derived path `out/photo.webp`. -/
theorem claim_C1_witness :
    ((wSample.setFile "out/photo.webp"
        (.image { fmt := "WEBP", mode := "RGB", content := 7, quality := some 50 })).lookup
      (os_join "out" ((os_splitext (os_basename "in/photo.png")).1 ++ "." ++ pyLower "webp"))).isSome
      = true := by
  obtain ⟨d, hd⟩ := claim_C1 wSample "in/photo.png" "out" "webp" 50
      (wSample.setFile "out/photo.webp"
        (.image { fmt := "WEBP", mode := "RGB", content := 7, quality := some 50 }))
      [msgConverted "in/photo.png" "out/photo.webp"]
      (Or.inl (by decide)) (by rfl)
  rw [hd, World.lookup_setFile_self]
  rfl

/-- C2: for every decodable input and a target format that lower-cases to
webp, the converter forces the image to mode RGB before encoding and
encodes with the given quality: the written file is a 3-channel (RGB)
webp carrying exactly `quality`, whatever the input's original mode. -/
theorem claim_C2 (w : World) (ip od fmt : String) (q : Int) (img : Img)
    (hfmt : pyLower fmt = "webp") (hopen : imageOpen w ip = .ok img)
    (hb : w.badWrite.contains (finalOutputPath ip od fmt) = false) :
    convert_image_body w ip od fmt q =
      .ok (w.setFile (finalOutputPath ip od fmt)
            (.image { fmt := "WEBP", mode := "RGB", content := img.content, quality := some q }),
           [msgConverted ip (finalOutputPath ip od fmt)]) :=
  webp_body_eq w ip od fmt q img hfmt hopen hb

/-- C2 witness: the RGBA input `in/photo.png` becomes an RGB webp file at
quality 50 — the alpha channel is dropped. -/
theorem claim_C2_witness :
    convert_image_body wSample "in/photo.png" "out" "WebP" 50 =
      .ok (wSample.setFile (finalOutputPath "in/photo.png" "out" "WebP")
            (.image { fmt := "WEBP", mode := "RGB", content := 7, quality := some 50 }),
           [msgConverted "in/photo.png" (finalOutputPath "in/photo.png" "out" "WebP")]) :=
  claim_C2 wSample "in/photo.png" "out" "WebP" 50 imgSample (by decide) (by rfl) (by rfl)

/-- C3: for every target format that lower-cases to png, jpeg or jpg, the
converter encodes with the library default handling — no forced mode
conversion (the written file keeps the decoded image's pixel mode, and no
quality is recorded) — and the quality argument has no effect at all on
the result of the call. -/
theorem claim_C3 (w : World) (ip od fmt : String) (q1 q2 : Int)
    (hmem : (["png", "jpeg", "jpg"].contains (pyLower fmt)) = true) :
    convert_image w ip od fmt q1 = convert_image w ip od fmt q2 ∧
    (∀ (img : Img) (w2 : World) (out : List String),
      imageOpen w ip = .ok img →
      convert_image_body w ip od fmt q1 = .ok (w2, out) →
      ∃ F, w2 = w.setFile (finalOutputPath ip od fmt)
        (.image { fmt := F, mode := img.mode, content := img.content, quality := none })) := by
  have hne : pyLower fmt ≠ "webp" := mem_three_ne_webp hmem
  constructor
  · have hbody : convert_image_body w ip od fmt q1 = convert_image_body w ip od fmt q2 := by
      cases hopen : imageOpen w ip with
      | error e =>
        rw [convert_image_body_err w ip od fmt q1 e hopen,
            convert_image_body_err w ip od fmt q2 e hopen]
      | ok img =>
        rw [convert_image_body_std w ip od fmt q1 img hopen hne hmem,
            convert_image_body_std w ip od fmt q2 img hopen hne hmem]
    unfold convert_image
    rw [hbody]
  · intro img w2 out hopen h
    rw [convert_image_body_std w ip od fmt q1 img hopen hne hmem] at h
    cases hps : pilSave w img (finalOutputPath ip od fmt) none none with
    | error e => rw [hps] at h; exact absurd h (by simp)
    | ok w' =>
      rw [hps] at h
      injection h with h
      rw [Prod.mk.injEq] at h
      obtain ⟨F, -, hset, -, -⟩ := pilSave_ok _ _ _ _ _ _ hps
      exact ⟨F, h.1 ▸ hset⟩

/-- C3 witness: converting `in/photo.png` to png at quality 80 and at the
out-of-band quality 999 produces identical results. -/
theorem claim_C3_witness :
    convert_image wSample "in/photo.png" "out" "png" 80 =
      convert_image wSample "in/photo.png" "out" "png" 999 :=
  (claim_C3 wSample "in/photo.png" "out" "png" 80 999 (by decide)).1

/-- C4: for every format string outside {webp, png, jpeg, jpg}
(case-insensitively) on a decodable input, the converter reports the
unsupported-format line, writes nothing (the world is returned unchanged)
and returns normally. -/
theorem claim_C4 (w : World) (ip od fmt : String) (q : Int) (img : Img)
    (hopen : imageOpen w ip = .ok img)
    (hne : pyLower fmt ≠ "webp")
    (hnmem : (["png", "jpeg", "jpg"].contains (pyLower fmt)) = false) :
    convert_image w ip od fmt q = (w, [msgUnsupported fmt]) :=
  convert_image_eq_ok w ip od fmt q (w, [msgUnsupported fmt])
    (convert_image_body_unsup w ip od fmt q img hopen hne hnmem)

/-- C4 witness: requesting format `tiff` on `in/photo.png` only prints the
unsupported-format line and leaves the filesystem untouched. -/
theorem claim_C4_witness :
    convert_image wSample "in/photo.png" "out" "tiff" 80 =
      (wSample, [msgUnsupported "tiff"]) :=
  claim_C4 wSample "in/photo.png" "out" "tiff" 80 imgSample (by rfl) (by decide) (by rfl)

/-- C5: every per-file failure is caught at the per-file boundary: a
missing source file yields the dedicated file-not-found line, any other
decode/encode exception yields the generic line carrying its cause, and in
both cases `convert_image` returns normally with the world unchanged; at
the walker level a failing conversion likewise only appends its status
line, leaving the world unchanged, so the batch continues. -/
theorem claim_C5 (w : World) (ip od fmt idir : String) (q : Int) :
    (convert_image_body w ip od fmt q = .error .fileNotFound →
      convert_image w ip od fmt q = (w, [msgNotFound ip])) ∧
    (∀ m, convert_image_body w ip od fmt q = .error (.other m) →
      convert_image w ip od fmt q = (w, [msgGenericError ip m])) ∧
    (imageOpen w ip = .error .fileNotFound →
      convert_image_body w ip od fmt q = .error .fileNotFound) ∧
    (∀ (out : List String) (name : String) (img : Img) (m : String),
      w.isfile (os_join idir name) = true →
      imageOpen w (os_join idir name) = .ok img →
      convert_image_body w (os_join idir name) od fmt q = .error (.other m) →
      walkStep idir od fmt q (w, out) name =
        (w, out ++ [msgGenericError (os_join idir name) m])) := by
  refine ⟨?_, ?_, ?_, ?_⟩
  · exact convert_image_eq_nf w ip od fmt q
  · exact convert_image_eq_err w ip od fmt q
  · exact convert_image_body_err w ip od fmt q .fileNotFound
  · intro out name img m hfile hopen hbody
    have hconv : convert_image w (os_join idir name) od fmt q =
        (w, [msgGenericError (os_join idir name) m]) :=
      convert_image_eq_err w _ od fmt q m hbody
    unfold walkStep
    rw [if_pos hfile, hopen]
    show ((convert_image w (os_join idir name) od fmt q).1,
      out ++ (convert_image w (os_join idir name) od fmt q).2) = _
    rw [hconv]

/-- C5 witness: the non-image `in/notes.txt` makes the body raise a
generic decode error whose cause is reported, with the world unchanged. -/
theorem claim_C5_witness :
    convert_image wSample "in/notes.txt" "out" "png" 80 =
      (wSample,
       [msgGenericError "in/notes.txt"
         ("cannot identify image file \x27in/notes.txt\x27")]) :=
  (claim_C5 wSample "in/notes.txt" "out" "png" "in" 80).2.1
    ("cannot identify image file \x27in/notes.txt\x27") (by rfl)

/-- C6: when the input directory does not exist, the entry point prints
the error line and terminates normally with exit code 0, the world left
untouched — the walker is never invoked and the output directory is never
created. -/
theorem claim_C6 (w : World) (idir od fmt : String) (q : Int)
    (h : w.isdir idir = false) :
    mainRun w idir od fmt q =
      { world := w,
        output := ["Error: Input directory \x27" ++ idir ++ "\x27 does not exist."],
        exitCode := 0 } := by
  unfold mainRun
  rw [if_pos (by rw [h]; exact Bool.false_ne_true)]

/-- C6 witness: running against the missing directory `nope` only prints
the error, creates nothing and exits 0. -/
theorem claim_C6_witness :
    mainRun wSample "nope" "out" "webp" 80 =
      { world := wSample,
        output := ["Error: Input directory \x27nope\x27 does not exist."],
        exitCode := 0 } :=
  claim_C6 wSample "nope" "out" "webp" 80 (by rfl)

theorem childNameFrom_sound (pre a r : String) (h : childNameFrom pre a = some r) :
    r ≠ "" ∧ r.toList.contains '/' = false := by
  unfold childNameFrom at h
  split at h
  · split at h
    · rename_i hcond
      injection h with h
      subst h
      exact ⟨hcond.1, by simpa using hcond.2⟩
    · exact absurd h (by simp)
  · exact absurd h (by simp)

theorem childName_sound (d a r : String) (h : childName d a = some r) :
    r ≠ "" ∧ r.toList.contains '/' = false :=
  childNameFrom_sound _ a r h

/-- C7: whenever the output directory is missing, `process_directory`
creates it together with every missing parent and emits the creation
line, and only then folds the walker over the directory listing — the
enumeration and every write happen against the post-creation world, with
the creation line already first in the output. -/
theorem claim_C7 (w : World) (idir od fmt : String) (q : Int)
    (hne : od ≠ "") (h : w.pathExists od = false) :
    process_directory w idir od fmt q =
      ((w.makedirs od).listdir idir).foldl (walkStep idir od fmt q)
        (w.makedirs od, [msgCreated od]) ∧
    (w.makedirs od).isdir od = true ∧
    (∀ p ∈ pathPrefixes od, (w.makedirs od).isdir p = true) := by
  refine ⟨?_, World.isdir_makedirs w od od (mem_pathPrefixes_self hne), ?_⟩
  · unfold process_directory
    rw [if_pos (by rw [h]; exact Bool.false_ne_true)]
  · intro p hp
    exact World.isdir_makedirs w od p hp

/-- C7 witness: with `out` missing from the sample world, the walk starts
from the post-creation world with the creation line already printed. -/
theorem claim_C7_witness :
    process_directory wSample "in" "out" "webp" 50 =
      ((wSample.makedirs "out").listdir "in").foldl (walkStep "in" "out" "webp" 50)
        (wSample.makedirs "out", [msgCreated "out"]) :=
  (claim_C7 wSample "in" "out" "webp" 50 (by decide) (by rfl)).1

/-- C8: the walker lists only direct children of the input directory (the
entry names contain no separator), ignores entries that are not regular
files, skips — with the skip line and without invoking the converter — any
file whose trial decode fails, and invokes the converter on every file
whose trial decode succeeds. -/
theorem claim_C8 (w : World) (idir od fmt : String) (q : Int) :
    (∀ name ∈ w.listdir idir, name ≠ "" ∧ name.toList.contains '/' = false) ∧
    (∀ (acc : World × List String) (name : String),
      acc.1.isfile (os_join idir name) = false →
      walkStep idir od fmt q acc name = acc) ∧
    (∀ (win : World) (out : List String) (name : String) (e : PyErr),
      win.isfile (os_join idir name) = true →
      imageOpen win (os_join idir name) = .error e →
      walkStep idir od fmt q (win, out) name =
        (win, out ++ [msgSkip (os_join idir name)])) ∧
    (∀ (win : World) (out : List String) (name : String) (img : Img),
      win.isfile (os_join idir name) = true →
      imageOpen win (os_join idir name) = .ok img →
      walkStep idir od fmt q (win, out) name =
        ((convert_image win (os_join idir name) od fmt q).1,
         out ++ (convert_image win (os_join idir name) od fmt q).2)) := by
  refine ⟨?_, ?_, ?_, ?_⟩
  · intro name hmem
    unfold World.listdir at hmem
    rw [List.mem_filterMap] at hmem
    obtain ⟨a, -, ha⟩ := hmem
    exact childName_sound idir a name ha
  · intro acc name hfile
    unfold walkStep
    rw [if_neg (by rw [hfile]; exact Bool.false_ne_true)]
  · intro win out name e hfile hopen
    unfold walkStep
    rw [if_pos hfile, hopen]
  · intro win out name img hfile hopen
    unfold walkStep
    rw [if_pos hfile, hopen]

/-- C8 witness: the text file `in/notes.txt` fails the trial decode, so
the walker emits the skip line and leaves the world unchanged. -/
theorem claim_C8_witness :
    walkStep "in" "out" "webp" 50 (wSample, []) "notes.txt" =
      (wSample, [msgSkip "in/notes.txt"]) :=
  (claim_C8 wSample "in" "out" "webp" 50).2.2.1 wSample [] "notes.txt"
    (.other ("cannot identify image file \x27in/notes.txt\x27")) (by rfl) (by rfl)

theorem imageOpen_setFile_ne (w : World) (P ip : String) (D : FileData) (hip : ip ≠ P) :
    imageOpen (w.setFile P D) ip = imageOpen w ip := by
  unfold imageOpen
  rw [World.lookup_setFile_ne w P ip D hip]
  rfl

theorem imageOpen_setFile_self (w : World) (P : String) (D : ImgFile) :
    imageOpen (w.setFile P (.image D)) P = .ok { mode := D.mode, content := D.content } := by
  unfold imageOpen
  rw [World.lookup_setFile_self]

/-- C9: a successful conversion is idempotent: running it again on the
same input and output with the same arguments returns the very same world
and the very same status line — the existing output file is silently
overwritten, no error is raised — and the output directory holds exactly
one file at the derived path, not a duplicate. -/
theorem claim_C9 (w : World) (ip od fmt : String) (q : Int) (w1 : World) (out1 : List String)
    (hfmt : pyLower fmt = "webp" ∨ (["png", "jpeg", "jpg"].contains (pyLower fmt)) = true)
    (h : convert_image_body w ip od fmt q = .ok (w1, out1)) :
    convert_image w1 ip od fmt q = (w1, out1) ∧
    w1.files.countP (fun e => e.1 = finalOutputPath ip od fmt) = 1 := by
  set P := finalOutputPath ip od fmt with hP
  cases hopen : imageOpen w ip with
  | error e =>
    rw [convert_image_body_err w ip od fmt q e hopen] at h
    exact absurd h (by simp)
  | ok img =>
    rcases hfmt with hfmt | hmem
    · rw [convert_image_body_webp w ip od fmt q img hopen hfmt, ← hP] at h
      cases hps : pilSave w (imgConvert img "RGB") P (some "webp") (some q) with
      | error e => rw [hps] at h; exact absurd h (by simp)
      | ok w' =>
        rw [hps] at h
        injection h with h
        rw [Prod.mk.injEq] at h
        obtain ⟨hw1, hout⟩ := h
        obtain ⟨F, hres, hset, hb, -⟩ := pilSave_ok _ _ _ _ _ _ hps
        have hF : F = "WEBP" := by
          rw [resolveFormat_webp] at hres
          injection hres with hres
          exact hres.symm
        have hw1e : w1 = w.setFile P
            (.image { fmt := "WEBP", mode := "RGB", content := img.content, quality := some q }) := by
          rw [← hw1, hset, hF]
          rfl
        have hb1 : w1.badWrite.contains P = false := by
          rw [hw1e]
          exact hb
        have hopen2 : ∃ img' : Img, imageOpen w1 ip = .ok img' ∧ img'.content = img.content := by
          by_cases hip : ip = P
          · refine ⟨{ mode := "RGB", content := img.content }, ?_, rfl⟩
            rw [hw1e, hip]
            exact imageOpen_setFile_self w P _
          · refine ⟨img, ?_, rfl⟩
            rw [hw1e, imageOpen_setFile_ne _ _ _ _ hip]
            exact hopen
        obtain ⟨img', hopen', hcont⟩ := hopen2
        have hbody2 : convert_image_body w1 ip od fmt q = .ok (w1, out1) := by
          rw [webp_body_eq w1 ip od fmt q img' hfmt hopen' hb1, ← hP]
          have hsf : w1.setFile P
              (.image { fmt := "WEBP", mode := "RGB", content := img'.content, quality := some q })
                = w1 := by
            rw [hcont, hw1e, World.setFile_setFile]
          rw [hsf, hout]
        refine ⟨convert_image_eq_ok _ _ _ _ _ _ hbody2, ?_⟩
        rw [hw1e]
        exact World.countP_setFile _ _ _
    · have hne := mem_three_ne_webp hmem
      rw [convert_image_body_std w ip od fmt q img hopen hne hmem, ← hP] at h
      cases hps : pilSave w img P none none with
      | error e => rw [hps] at h; exact absurd h (by simp)
      | ok w' =>
        rw [hps] at h
        injection h with h
        rw [Prod.mk.injEq] at h
        obtain ⟨hw1, hout⟩ := h
        obtain ⟨F, hres, hset, hb, hj⟩ := pilSave_ok _ _ _ _ _ _ hps
        have hw1e : w1 = w.setFile P
            (.image { fmt := F, mode := img.mode, content := img.content, quality := none }) := by
          rw [← hw1, hset]
        have hb1 : w1.badWrite.contains P = false := by
          rw [hw1e]
          exact hb
        have hopen' : imageOpen w1 ip = .ok img := by
          by_cases hip : ip = P
          · rw [hw1e, hip]
            exact imageOpen_setFile_self w P _
          · rw [hw1e, imageOpen_setFile_ne _ _ _ _ hip]
            exact hopen
        have hbody2 : convert_image_body w1 ip od fmt q = .ok (w1, out1) := by
          rw [std_body_eq w1 ip od fmt F q img hne hmem hopen' hres hj hb1, ← hP]
          have hsf : w1.setFile P
              (.image { fmt := F, mode := img.mode, content := img.content, quality := none })
                = w1 := by
            rw [hw1e, World.setFile_setFile]
          rw [hsf, hout]
        refine ⟨convert_image_eq_ok _ _ _ _ _ _ hbody2, ?_⟩
        rw [hw1e]
        exact World.countP_setFile _ _ _

/-- C9 witness: after converting `in/photo.png` to webp once, a second
identical run returns the produced world and status line unchanged, and
exactly one `out/photo.webp` exists. -/
theorem claim_C9_witness :
    convert_image
        (wSample.setFile "out/photo.webp"
          (.image { fmt := "WEBP", mode := "RGB", content := 7, quality := some 50 }))
        "in/photo.png" "out" "webp" 50 =
      (wSample.setFile "out/photo.webp"
        (.image { fmt := "WEBP", mode := "RGB", content := 7, quality := some 50 }),
       [msgConverted "in/photo.png" "out/photo.webp"]) ∧
    (wSample.setFile "out/photo.webp"
        (.image { fmt := "WEBP", mode := "RGB", content := 7, quality := some 50 })).files.countP
      (fun e => e.1 = finalOutputPath "in/photo.png" "out" "webp") = 1 :=
  claim_C9 wSample "in/photo.png" "out" "webp" 50
    (wSample.setFile "out/photo.webp"
      (.image { fmt := "WEBP", mode := "RGB", content := 7, quality := some 50 }))
    [msgConverted "in/photo.png" "out/photo.webp"]
    (Or.inl (by decide)) (by rfl)

/-- C10: the quality argument undergoes no range validation anywhere: any
integer — including values outside 0–100 — is accepted by argument
parsing, handed unchanged through the entry point, and passed as-is to
the webp encoder, which records exactly that value. -/
theorem claim_C10 (i o f : String) (q : Int) (w : World) (ip od : String) (img : Img)
    (hopen : imageOpen w ip = .ok img)
    (hb : w.badWrite.contains (finalOutputPath ip od "webp") = false) :
    (parseArgs i o f (some q)).quality = q ∧
    runCli w i o f (some q) = mainRun w i o f q ∧
    convert_image_body w ip od "webp" q =
      .ok (w.setFile (finalOutputPath ip od "webp")
            (.image { fmt := "WEBP", mode := "RGB", content := img.content, quality := some q }),
           [msgConverted ip (finalOutputPath ip od "webp")]) :=
  ⟨rfl, rfl, webp_body_eq w ip od "webp" q img (by decide) hopen hb⟩

/-- C10 witness: the out-of-range quality 123 is parsed untouched, flows
through the CLI unchanged, and ends up verbatim in the encoded file. -/
theorem claim_C10_witness :
    (parseArgs "a" "b" "WEBP" (some 123)).quality = 123 ∧
    runCli wSample "a" "b" "WEBP" (some 123) = mainRun wSample "a" "b" "WEBP" 123 ∧
    convert_image_body wSample "in/photo.png" "out" "webp" 123 =
      .ok (wSample.setFile (finalOutputPath "in/photo.png" "out" "webp")
            (.image { fmt := "WEBP", mode := "RGB", content := 7, quality := some 123 }),
           [msgConverted "in/photo.png" (finalOutputPath "in/photo.png" "out" "webp")]) :=
  claim_C10 "a" "b" "WEBP" 123 wSample "in/photo.png" "out" imgSample (by rfl) (by rfl)
